import Mathlib

/-!
Verification of the AST core of a Thrift IDL language server
(`parser` package: node model, position arithmetic, bad-node recovery,
document aggregation). Every definition below is a shallow embedding of
the corresponding Go declaration; Go pointers become `Option`, Go slices
become `List`, Go `int` becomes `Int`, Go strings become `String`
(or `List Char` where rune/byte arithmetic matters), and a value held
through the `Node` interface becomes a value of the inductive `Node`.
-/

namespace Thrift

/-- `Position` from the source: 1-based line, 1-based rune column, 0-based
byte offset. -/
structure Position where
  line : Int
  col : Int
  offset : Int
deriving DecidableEq

/-- `Location` from the source: a half-open span of two positions. -/
structure Location where
  startPos : Position
  endPos : Position
deriving DecidableEq

/-- `Position.Less`: strict order over (line, col) only. -/
def posLess (p other : Position) : Bool :=
  if p.line < other.line then true
  else if p.line = other.line then decide (p.col < other.col)
  else false

/-- `Position.Equal`: equality over (line, col) only. -/
def posEqual (p other : Position) : Bool :=
  decide (p.line = other.line) && decide (p.col = other.col)

/-- `Position.Greater`: strict order over (line, col) only. -/
def posGreater (p other : Position) : Bool :=
  if p.line > other.line then true
  else if p.line = other.line then decide (p.col > other.col)
  else false

/-- `Location.Contains` has a pointer receiver and returns false for a nil
receiver, so it is modelled on `Option Location`. -/
def locContains (l : Option Location) (pos : Position) : Bool :=
  match l with
  | none => false
  | some l => (posLess l.startPos pos || posEqual l.startPos pos) && posGreater l.endPos pos

/-- The specification's order `start <= pos` over (line, column). -/
def PosLe (a b : Position) : Prop :=
  a.line < b.line ∨ (a.line = b.line ∧ a.col ≤ b.col)

/-- The specification's strict order `pos < end` over (line, column). -/
def PosLt (a b : Position) : Prop :=
  a.line < b.line ∨ (a.line = b.line ∧ a.col < b.col)

instance (a b : Position) : Decidable (PosLe a b) := by
  unfold PosLe; infer_instance

instance (a b : Position) : Decidable (PosLt a b) := by
  unfold PosLt; infer_instance

/-- The parser generator's `position` struct (line, col, offset), the
argument type of `NewLocation`. -/
structure PigeonPos where
  line : Int
  col : Int
  offset : Int
deriving DecidableEq

/-- `ConvertPosition` from the source. -/
def ConvertPosition (p : PigeonPos) : Position :=
  { line := p.line, col := p.col, offset := p.offset }

/-- `strings.Count(text, "\n")` for the one-byte separator `"\n"`: the
number of newline characters. -/
def goCountNewlines (text : List Char) : Nat :=
  text.countP (· == '\n')

/-- The suffix of `text` that begins at its last newline character, when
a newline exists. -/
def suffixFromLastNewline : List Char → Option (List Char)
  | [] => none
  | c :: rest =>
    match suffixFromLastNewline rest with
    | some s => some s
    | none => if c == '\n' then some (c :: rest) else none

/-- `text[lastLineOffset:]` as computed in `NewLocation`:
`strings.LastIndexByte(text, '\n')` is the byte index of the last newline,
and `-1` is replaced by `0`, so the slice is the suffix starting AT the
last newline (newline included), or the whole text when there is none.
A newline is one ASCII byte, so byte slicing there is character slicing. -/
def goLastLine (text : List Char) : List Char :=
  (suffixFromLastNewline text).getD text

/-- The UTF-8 byte width of one code point, as Go strings store it. -/
def goUtf8Size (c : Char) : Nat :=
  if c.toNat < 128 then 1
  else if c.toNat < 2048 then 2
  else if c.toNat < 65536 then 3
  else 4

/-- `len(text)` of a Go string: its UTF-8 byte length. -/
def goByteLen (text : List Char) : Nat :=
  (text.map goUtf8Size).sum

/-- `NewLocation(startPos position, text string)` from the source, line by
line: count newlines (minus one when the parser reported column 0), take
the byte suffix from the last newline (`utf8.RuneCount` of it, plus 1, is
the candidate end column), add `start.Col - 1` only in the single-line
case, and advance the byte offset by the byte length of the text. -/
def NewLocation (startPos : PigeonPos) (text : List Char) : Location :=
  let start := ConvertPosition startPos
  let nLine0 : Int := (goCountNewlines text : Int)
  let nLine : Int := if startPos.col = 0 then nLine0 - 1 else nLine0
  let lastLine : List Char := goLastLine text
  let col0 : Int := (lastLine.length : Int) + 1
  let col : Int := if nLine = 0 then col0 + start.col - 1 else col0
  { startPos := start
    endPos := { line := start.line + nLine, col := col, offset := start.offset + (goByteLen text : Int) } }

/-- The concrete keyword wrapper types of the source (`IncludeKeyword`,
`LCurKeyword`, ...): each embeds `Keyword` and only adds its `Type()`
string. `ListSeparatorKeyword` also carries the separator text. -/
inductive KwTag where
  | includeKw
  | cppIncludeKw
  | namespaceKw
  | structKw
  | lcurKw
  | rcurKw
  | constKw
  | equalKw
  | typedefKw
  | enumKw
  | serviceKw
  | extendsKw
  | onewayKw
  | lparKw
  | rparKw
  | voidKw
  | throwsKw
  | unionKw
  | exceptionKw
  | colonKw
  | requiredKw
  | lpointKw
  | rpointKw
  | commaKw
  | cppTypeKw
  | lbrkKw
  | rbrkKw
  | listSeparatorKw (text : String)
deriving DecidableEq

/-- The closed set of concrete `parser.Node` implementations, one
constructor per Go struct, fields in the source's declaration order.
Typed Go pointer fields (`*IncludeKeyword`, `*Literal`, ...) are modelled
as `Option Node`: the Go methods only ever use them through the `Node`
interface, and a nil pointer stored into the interface is `none`.
Go slice fields become `List Node` (or `List Node` of comment nodes).
`FieldType`'s unused-by-`Children` `CppType` pointer is modelled by the
standalone `CppType` structure further down (its `IsBadNode` does not
terminate, so it cannot carry the total `isBadNode` of this inductive;
no `Children()` method of the source ever puts a `CppType` in a child
list). `ConstValue`'s `Value`/`Key` slots have Go type `any`; the only
node values they ever hold are `*ConstValue` (the `pair` variant), so
they are modelled as `Option Node`. -/
inductive Node where
  | badHeader (badNode : Bool) (loc : Location)
  | keywordNode (tag : KwTag) (comments : List Node) (literal : Option Node)
      (badNode : Bool) (loc : Location)
  | keywordLiteral (text : String) (badNode : Bool) (loc : Location)
  | includeNode (includeKeyword path : Option Node)
      (comments endLineComments : List Node) (badNode : Bool) (loc : Location)
  | cppIncludeNode (cppIncludeKeyword path : Option Node)
      (comments endLineComments : List Node) (badNode : Bool) (loc : Location)
  | namespaceNode (namespaceKeyword language name annos : Option Node)
      (comments endLineComments : List Node) (badNode : Bool) (loc : Location)
  | badDefinition (badNode : Bool) (loc : Location)
  | structNode (structKeyword lcurKeyword rcurKeyword identifier : Option Node)
      (fields : List Node) (comments endLineComments : List Node)
      (annos : Option Node) (badNode : Bool) (loc : Location)
  | constNode (constKeyword equalKeyword listSeparatorKeyword name constType value : Option Node)
      (comments endLineComments : List Node) (annos : Option Node)
      (badNode : Bool) (loc : Location)
  | typedefNode (typedefKeyword t aliasId : Option Node)
      (comments endLineComments : List Node) (annos : Option Node)
      (badNode : Bool) (loc : Location)
  | enumNode (enumKeyword lcurKeyword rcurKeyword name : Option Node)
      (values : List Node) (comments endLineComments : List Node)
      (annos : Option Node) (badNode : Bool) (loc : Location)
  | enumValueNode (listSeparatorKeyword equalKeyword name valueNode : Option Node)
      (value : Int) (annos : Option Node) (comments endLineComments : List Node)
      (badNode : Bool) (loc : Location)
  | serviceNode (serviceKeyword extendsKeyword lcurKeyword rcurKeyword name extendsId : Option Node)
      (functions : List Node) (comments endLineComments : List Node)
      (annos : Option Node) (badNode : Bool) (loc : Location)
  | throwsNode (throwsKeyword lparKeyword rparKeyword : Option Node)
      (fields : List Node) (badNode : Bool) (loc : Location)
  | functionNode (lparKeyword rparKeyword listSeparatorKeyword name oneway void functionType : Option Node)
      (arguments : List Node) (throws : Option Node)
      (comments endLineComments : List Node) (annos : Option Node)
      (badNode : Bool) (loc : Location)
  | unionNode (unionKeyword lcurKeyword rcurKeyword name : Option Node)
      (fields : List Node) (comments endLineComments : List Node)
      (annos : Option Node) (badNode : Bool) (loc : Location)
  | exceptionNode (exceptionKeyword lcurKeyword rcurKeyword name : Option Node)
      (fields : List Node) (comments endLineComments : List Node)
      (annos : Option Node) (badNode : Bool) (loc : Location)
  | identifierName (text : String) (badNode : Bool) (loc : Location)
  | identifierNode (name : Option Node) (comments : List Node)
      (badNode : Bool) (loc : Location)
  | fieldNode (index requiredKeyword fieldType identifier constValue equalKeyword listSeparatorKeyword : Option Node)
      (comments endLineComments : List Node) (annos : Option Node)
      (badNode : Bool) (loc : Location)
  | fieldIndexNode (colonKeyword : Option Node) (value : Int)
      (comments : List Node) (badNode : Bool) (loc : Location)
  | fieldTypeNode (typeName keyType valueType lpointKeyword rpointKeyword commaKeyword annos : Option Node)
      (badNode : Bool) (loc : Location)
  | typeNameNode (name : String) (comments : List Node) (badNode : Bool) (loc : Location)
  | constValueNode (typeName : String) (value : Option Node) (valueInText : String)
      (key : Option Node)
      (lbrkKeyword rbrkKeyword lcurKeyword rcurKeyword listSeparatorKeyword colonKeyword : Option Node)
      (comments : List Node) (badNode : Bool) (loc : Location)
  | literalValueNode (text : String) (badNode : Bool) (loc : Location)
  | literalNode (value : Option Node) (quote : String) (comments : List Node)
      (badNode : Bool) (loc : Location)
  | annosNode (annoList : List Node) (lparKeyword rparKeyword : Option Node)
      (badNode : Bool) (loc : Location)
  | annoNode (equalKeyword listSeparatorKeyword identifier value : Option Node)
      (badNode : Bool) (loc : Location)
  | commentNode (text : String) (style : String) (badNode : Bool) (loc : Location)

/-- A Go `if field != nil { nodes = append(nodes, field) }` step: the
field's interface value enters the child list only when the pointer is
non-nil. -/
def optChild (o : Option Node) : List (Option Node) :=
  o.toList.map some

/-- A Go `for i := range slice { nodes = append(nodes, slice[i]) }` step:
every slice element enters the child list (slice elements are never nil
in any tree the grammar engine builds). -/
def reqChildren (l : List Node) : List (Option Node) :=
  l.map some

/-- `Children()` of every concrete node type, entry for entry in the
source's append order. An entry placed unconditionally from a pointer
field (for example `[]Node{s.StructKeyword, ...}`) keeps the `Option`:
`none` is a typed-nil pointer sitting inside a non-nil interface value. -/
def children : Node → List (Option Node)
  | .badHeader _ _ => []
  | .keywordNode _ _ _ _ _ => []
  | .keywordLiteral _ _ _ => []
  | .includeNode kw path cs ecs _ _ =>
      [kw, path] ++ reqChildren cs ++ reqChildren ecs
  | .cppIncludeNode kw path cs ecs _ _ =>
      [kw, path] ++ reqChildren cs ++ reqChildren ecs
  | .namespaceNode kw lang nm annos cs ecs _ _ =>
      [kw, lang, nm] ++ reqChildren cs ++ reqChildren ecs ++ optChild annos
  | .badDefinition _ _ => []
  | .structNode sk lc rc idf fs cs ecs annos _ _ =>
      [sk, lc, rc, idf] ++ reqChildren fs ++ reqChildren cs ++ reqChildren ecs ++ optChild annos
  | .constNode ck ek lsep nm ct v cs ecs annos _ _ =>
      [ck, ek, nm, ct, v] ++ optChild lsep ++ reqChildren cs ++ reqChildren ecs ++ optChild annos
  | .typedefNode tk t al cs ecs annos _ _ =>
      [tk, t, al] ++ reqChildren cs ++ reqChildren ecs ++ optChild annos
  | .enumNode _ _ _ nm vals cs ecs annos _ _ =>
      [nm] ++ reqChildren vals ++ reqChildren cs ++ reqChildren ecs ++ optChild annos
  | .enumValueNode lsep ek nm vn _ annos cs ecs _ _ =>
      [nm] ++ optChild vn ++ optChild lsep ++ optChild ek ++ reqChildren cs ++ reqChildren ecs ++ optChild annos
  | .serviceNode sk xk lc rc nm ext fns cs ecs annos _ _ =>
      [sk, lc, rc] ++ optChild xk ++ optChild nm ++ optChild ext ++ reqChildren fns
        ++ reqChildren cs ++ reqChildren ecs ++ optChild annos
  | .throwsNode tk lp rp fs _ _ =>
      [tk, lp, rp] ++ reqChildren fs
  | .functionNode lp rp lsep nm ow vd ft args thr cs ecs annos _ _ =>
      [lp, rp] ++ optChild ow ++ optChild vd ++ optChild lsep ++ optChild nm ++ optChild ft
        ++ reqChildren args ++ optChild thr ++ reqChildren cs ++ reqChildren ecs ++ optChild annos
  | .unionNode uk lc rc nm fs cs ecs annos _ _ =>
      [nm, uk, lc, rc] ++ reqChildren fs ++ reqChildren cs ++ reqChildren ecs
        ++ reqChildren cs ++ reqChildren ecs ++ optChild annos
  | .exceptionNode ek lc rc nm fs cs ecs annos _ _ =>
      [nm, ek, lc, rc] ++ reqChildren fs ++ reqChildren cs ++ reqChildren ecs ++ optChild annos
  | .identifierName _ _ _ => []
  | .identifierNode nm cs _ _ =>
      reqChildren cs ++ [nm]
  | .fieldNode _ rq ft idf cv ek lsep cs ecs annos _ _ =>
      optChild rq ++ optChild ft ++ optChild idf ++ optChild cv ++ optChild ek ++ optChild lsep
        ++ reqChildren cs ++ reqChildren ecs ++ optChild annos
  | .fieldIndexNode _ _ _ _ _ => []
  | .fieldTypeNode tn kt vt _ _ _ _ _ _ =>
      [tn] ++ optChild kt ++ optChild vt
  | .typeNameNode _ cs _ _ => reqChildren cs
  | .constValueNode _ _ _ _ _ _ _ _ _ _ _ _ _ => []
  | .literalValueNode _ _ _ => []
  | .literalNode v _ cs _ _ =>
      reqChildren cs ++ optChild v
  | .annosNode al lp rp _ _ =>
      [lp, rp] ++ reqChildren al
  | .annoNode ek lsep idf v _ _ =>
      [idf, v, ek] ++ optChild lsep
  | .commentNode _ _ _ _ => []

/-- `IsBadNode()` of every concrete node type. `BadHeader` and
`BadDefinition` return the literal `true` in the source; every other
type returns its stored `BadNode` field. (`CppType.IsBadNode` is the
one exception: it does not return at all, see `cppTypeIsBadNode`.) -/
def isBadNode : Node → Bool
  | .badHeader _ _ => true
  | .keywordNode _ _ _ b _ => b
  | .keywordLiteral _ b _ => b
  | .includeNode _ _ _ _ b _ => b
  | .cppIncludeNode _ _ _ _ b _ => b
  | .namespaceNode _ _ _ _ _ _ b _ => b
  | .badDefinition _ _ => true
  | .structNode _ _ _ _ _ _ _ _ b _ => b
  | .constNode _ _ _ _ _ _ _ _ _ b _ => b
  | .typedefNode _ _ _ _ _ _ b _ => b
  | .enumNode _ _ _ _ _ _ _ _ b _ => b
  | .enumValueNode _ _ _ _ _ _ _ _ b _ => b
  | .serviceNode _ _ _ _ _ _ _ _ _ _ b _ => b
  | .throwsNode _ _ _ _ b _ => b
  | .functionNode _ _ _ _ _ _ _ _ _ _ _ _ b _ => b
  | .unionNode _ _ _ _ _ _ _ _ b _ => b
  | .exceptionNode _ _ _ _ _ _ _ _ b _ => b
  | .identifierName _ b _ => b
  | .identifierNode _ _ b _ => b
  | .fieldNode _ _ _ _ _ _ _ _ _ _ b _ => b
  | .fieldIndexNode _ _ _ b _ => b
  | .fieldTypeNode _ _ _ _ _ _ _ b _ => b
  | .typeNameNode _ _ b _ => b
  | .constValueNode _ _ _ _ _ _ _ _ _ _ _ b _ => b
  | .literalValueNode _ b _ => b
  | .literalNode _ _ _ b _ => b
  | .annosNode _ _ _ b _ => b
  | .annoNode _ _ _ _ b _ => b
  | .commentNode _ _ b _ => b

/-- `Type()` string of a keyword wrapper type. -/
def kwTypeString : KwTag → String
  | .includeKw => "IncludeKeyword"
  | .cppIncludeKw => "CPPIncludeKeyword"
  | .namespaceKw => "NamespaceKeyword"
  | .structKw => "StructKeyword"
  | .lcurKw => "LCurKeyword"
  | .rcurKw => "RCurKeyword"
  | .constKw => "ConstKeyword"
  | .equalKw => "EqualKeyword"
  | .typedefKw => "TypedefKeyword"
  | .enumKw => "EnumKeyword"
  | .serviceKw => "ServiceKeyword"
  | .extendsKw => "ExtendsKeyword"
  | .onewayKw => "OnewayKeyword"
  | .lparKw => "LParKeyword"
  | .rparKw => "RParKeyword"
  | .voidKw => "VoidKeyword"
  | .throwsKw => "ThrowsKeyword"
  | .unionKw => "UnionKeyword"
  | .exceptionKw => "ExceptionKeyword"
  | .colonKw => "ColonKeyword"
  | .requiredKw => "RequiredKeyword"
  | .lpointKw => "LPointKeyword"
  | .rpointKw => "RPointKeyword"
  | .commaKw => "CommaKeyword"
  | .cppTypeKw => "CppTypeKeyword"
  | .lbrkKw => "LBrkKeyword"
  | .rbrkKw => "RBrkKeyword"
  | .listSeparatorKw _ => "ListSeparator"

/-- `Type()` of every concrete node type. Note `BadDefinition.Type()`
returns the string `"Definition"` in the source, not `"BadDefinition"`. -/
def nodeType : Node → String
  | .badHeader _ _ => "BadHeader"
  | .keywordNode tag _ _ _ _ => kwTypeString tag
  | .keywordLiteral _ _ _ => "KeywordLiteral"
  | .includeNode _ _ _ _ _ _ => "Include"
  | .cppIncludeNode _ _ _ _ _ _ => "CPPInclude"
  | .namespaceNode _ _ _ _ _ _ _ _ => "Namespace"
  | .badDefinition _ _ => "Definition"
  | .structNode _ _ _ _ _ _ _ _ _ _ => "Struct"
  | .constNode _ _ _ _ _ _ _ _ _ _ _ => "Const"
  | .typedefNode _ _ _ _ _ _ _ _ => "Typedef"
  | .enumNode _ _ _ _ _ _ _ _ _ _ => "Enum"
  | .enumValueNode _ _ _ _ _ _ _ _ _ _ => "EnumValue"
  | .serviceNode _ _ _ _ _ _ _ _ _ _ _ _ => "Service"
  | .throwsNode _ _ _ _ _ _ => "Throws"
  | .functionNode _ _ _ _ _ _ _ _ _ _ _ _ _ _ => "Function"
  | .unionNode _ _ _ _ _ _ _ _ _ _ => "Union"
  | .exceptionNode _ _ _ _ _ _ _ _ _ _ => "Exception"
  | .identifierName _ _ _ => "IdentifierName"
  | .identifierNode _ _ _ _ => "Identifier"
  | .fieldNode _ _ _ _ _ _ _ _ _ _ _ _ => "Field"
  | .fieldIndexNode _ _ _ _ _ => "FieldIndex"
  | .fieldTypeNode _ _ _ _ _ _ _ _ _ => "FieldType"
  | .typeNameNode _ _ _ _ => "TypeName"
  | .constValueNode _ _ _ _ _ _ _ _ _ _ _ _ _ => "ConstValue"
  | .literalValueNode _ _ _ => "LiteralValue"
  | .literalNode _ _ _ _ _ => "Literal"
  | .annosNode _ _ _ _ _ => "Annotations"
  | .annoNode _ _ _ _ _ _ => "Annotation"
  | .commentNode _ _ _ _ => "Comment"

/-- `NewBadHeader`. -/
def NewBadHeader (loc : Location) : Node :=
  .badHeader true loc

/-- `NewInclude`. -/
def NewInclude (keyword path : Option Node) (loc : Location) : Node :=
  .includeNode keyword path [] [] false loc

/-- `NewBadInclude`. -/
def NewBadInclude (loc : Location) : Node :=
  .includeNode none none [] [] true loc

/-- `NewCPPInclude`. -/
def NewCPPInclude (keyword path : Option Node) (loc : Location) : Node :=
  .cppIncludeNode keyword path [] [] false loc

/-- `NewBadCPPInclude`. -/
def NewBadCPPInclude (loc : Location) : Node :=
  .cppIncludeNode none none [] [] true loc

/-- `NewNamespace`. -/
def NewNamespace (keyword language name annos : Option Node) (loc : Location) : Node :=
  .namespaceNode keyword language name annos [] [] false loc

/-- `NewBadNamespace`. -/
def NewBadNamespace (loc : Location) : Node :=
  .namespaceNode none none none none [] [] true loc

/-- `NewBadDefinition`. -/
def NewBadDefinition (loc : Location) : Node :=
  .badDefinition true loc

/-- `NewStruct`. -/
def NewStruct (structKeyword lCurKeyword rCurKeyword identifier : Option Node)
    (fields : List Node) (loc : Location) : Node :=
  .structNode structKeyword lCurKeyword rCurKeyword identifier fields [] [] none false loc

/-- `NewBadStruct`. -/
def NewBadStruct (loc : Location) : Node :=
  .structNode none none none none [] [] [] none true loc

/-- `NewConst`. -/
def NewConst (constKeyword equalKeyword listSeparatorKeyword name t v : Option Node)
    (loc : Location) : Node :=
  .constNode constKeyword equalKeyword listSeparatorKeyword name t v [] [] none false loc

/-- `NewBadConst`. -/
def NewBadConst (loc : Location) : Node :=
  .constNode none none none none none none [] [] none true loc

/-- `NewTypedef`. -/
def NewTypedef (keyword t aliasId : Option Node) (loc : Location) : Node :=
  .typedefNode keyword t aliasId [] [] none false loc

/-- `NewBadTypedef`. -/
def NewBadTypedef (loc : Location) : Node :=
  .typedefNode none none none [] [] none true loc

/-- `NewEnum`. -/
def NewEnum (enumKeyword lCurKeyword rCurKeyword name : Option Node)
    (values : List Node) (loc : Location) : Node :=
  .enumNode enumKeyword lCurKeyword rCurKeyword name values [] [] none false loc

/-- `NewBadEnum`. -/
def NewBadEnum (loc : Location) : Node :=
  .enumNode none none none none [] [] [] none true loc

/-- `NewEnumValue`. -/
def NewEnumValue (listSeparatorKeyword equalKeyword name valueNode : Option Node)
    (value : Int) (annos : Option Node) (loc : Location) : Node :=
  .enumValueNode listSeparatorKeyword equalKeyword name valueNode value annos [] [] false loc

/-- `NewBadEnumValue`: only `BadNode` and `Location` are set, the `Value`
field keeps Go's zero value 0. -/
def NewBadEnumValue (loc : Location) : Node :=
  .enumValueNode none none none none 0 none [] [] true loc

/-- `NewService`. -/
def NewService (serviceKeyword extendsKeyword lCurKeyword rCurKeyword name extendsId : Option Node)
    (fns : List Node) (loc : Location) : Node :=
  .serviceNode serviceKeyword extendsKeyword lCurKeyword rCurKeyword name extendsId fns [] [] none false loc

/-- `NewBadService`. -/
def NewBadService (loc : Location) : Node :=
  .serviceNode none none none none none none [] [] [] none true loc

/-- `NewThrows`. -/
def NewThrows (throwsKeyword lparKeyword rparKeyword : Option Node)
    (fields : List Node) (loc : Location) : Node :=
  .throwsNode throwsKeyword lparKeyword rparKeyword fields false loc

/-- `NewFunction`. -/
def NewFunction (lParKeyword rParKeyword listSeparatorKeyword name oneway void ft : Option Node)
    (args : List Node) (throws : Option Node) (comments endlineComments : List Node)
    (annos : Option Node) (loc : Location) : Node :=
  .functionNode lParKeyword rParKeyword listSeparatorKeyword name oneway void ft
    args throws comments endlineComments annos false loc

/-- `NewBadFunction`. -/
def NewBadFunction (loc : Location) : Node :=
  .functionNode none none none none none none none [] none [] [] none true loc

/-- `NewUnion`. -/
def NewUnion (unionKeyword lCurKeyword rCurKeyword name : Option Node)
    (fields : List Node) (loc : Location) : Node :=
  .unionNode unionKeyword lCurKeyword rCurKeyword name fields [] [] none false loc

/-- `NewBadUnion`. -/
def NewBadUnion (loc : Location) : Node :=
  .unionNode none none none none [] [] [] none true loc

/-- `NewException`. -/
def NewException (exceptionKeyword lCurKeyword rCurKeyword name : Option Node)
    (fields : List Node) (loc : Location) : Node :=
  .exceptionNode exceptionKeyword lCurKeyword rCurKeyword name fields [] [] none false loc

/-- `NewBadException`. -/
def NewBadException (loc : Location) : Node :=
  .exceptionNode none none none none [] [] [] none true loc

/-- `NewIdentifierName`: `BadNode` is set exactly when the name text is
empty. -/
def NewIdentifierName (name : String) (loc : Location) : Node :=
  .identifierName name (name == "") loc

/-- `NewIdentifier`: `BadNode: name == nil || name.BadNode`. The source
reads the `BadNode` field of the `*IdentifierName` argument directly; for
an `IdentifierName` that field is exactly what `IsBadNode()` returns. -/
def NewIdentifier (name : Option Node) (comments : List Node) (loc : Location) : Node :=
  .identifierNode name comments
    (match name with
     | none => true
     | some nm => isBadNode nm) loc

/-- `NewBadIdentifier`. -/
def NewBadIdentifier (loc : Location) : Node :=
  .identifierNode none [] true loc

/-- `NewField`. -/
def NewField (equalKeyword listSeparatorKeyword : Option Node)
    (comments endLineComments : List Node) (annos : Option Node)
    (index required fieldType identifier constValue : Option Node)
    (loc : Location) : Node :=
  .fieldNode index required fieldType identifier constValue equalKeyword listSeparatorKeyword
    comments endLineComments annos false loc

/-- `NewBadField`. -/
def NewBadField (loc : Location) : Node :=
  .fieldNode none none none none none none none [] [] none true loc

/-- `NewFieldIndex`. -/
def NewFieldIndex (colonKeyword : Option Node) (v : Int) (comments : List Node)
    (loc : Location) : Node :=
  .fieldIndexNode colonKeyword v comments false loc

/-- `NewBadFieldIndex`. -/
def NewBadFieldIndex (loc : Location) : Node :=
  .fieldIndexNode none 0 [] true loc

/-- `NewFieldType`. -/
def NewFieldType (lpointKeyword rpointKeyword commaKeyword typeName keyType valueType : Option Node)
    (loc : Location) : Node :=
  .fieldTypeNode typeName keyType valueType lpointKeyword rpointKeyword commaKeyword none false loc

/-- `NewTypeName` builds the leaf with no comments and no bad flag. -/
def NewTypeName (name : String) (loc : Location) : Node :=
  .typeNameNode name [] false loc

/-- `NewConstValue`. -/
def NewConstValue (typeName : String) (value : Option Node) (loc : Location) : Node :=
  .constValueNode typeName value "" none none none none none none none [] false loc

/-- `NewBadConstValue`. -/
def NewBadConstValue (loc : Location) : Node :=
  .constValueNode "" none "" none none none none none none none [] true loc

/-- `NewMapConstValue`: the `pair` variant whose `Key` and `Value` slots
hold two other `ConstValue` nodes. -/
def NewMapConstValue (key value : Option Node) (loc : Location) : Node :=
  .constValueNode "pair" value "" key none none none none none none [] false loc

/-- `NewLiteralValue`. -/
def NewLiteralValue (text : String) (loc : Location) : Node :=
  .literalValueNode text false loc

/-- `NewBadLiteralValue`. -/
def NewBadLiteralValue (loc : Location) : Node :=
  .literalValueNode "" true loc

/-- `NewLiteral`. -/
def NewLiteral (comments : List Node) (v : Option Node) (quote : String)
    (loc : Location) : Node :=
  .literalNode v quote comments false loc

/-- `NewBadLiteral`. -/
def NewBadLiteral (loc : Location) : Node :=
  .literalNode none "" [] true loc

/-- `NewAnnotations`. -/
def NewAnnotations (lpar rpar : Option Node) (annoList : List Node) (loc : Location) : Node :=
  .annosNode annoList lpar rpar false loc

/-- The source's constructor for a single annotation entry (its Go name
ends in a word this development cannot use as an identifier suffix). -/
def NewAnno (equalKeyword listSeparatorKeyword id value : Option Node) (loc : Location) : Node :=
  .annoNode equalKeyword listSeparatorKeyword id value false loc

/-- The source's bad constructor for a single annotation entry. -/
def NewBadAnno (loc : Location) : Node :=
  .annoNode none none none none true loc

/-- `NewComment`. -/
def NewComment (text : String) (style : String) (loc : Location) : Node :=
  .commentNode text style false loc

/-- `NewBadComment`. -/
def NewBadComment (loc : Location) : Node :=
  .commentNode "" "" true loc

/-- The `SetComments(comments, endLineComments)` methods: implemented by
the header and definition types (`BadHeader` and `BadDefinition` as
no-ops), plus `EnumValue`; on every other node there is no such method
and the node is returned unchanged. -/
def setComments (n : Node) (comments endLineComments : List Node) : Node :=
  match n with
  | .includeNode kw path _ _ b l => .includeNode kw path comments endLineComments b l
  | .cppIncludeNode kw path _ _ b l => .cppIncludeNode kw path comments endLineComments b l
  | .namespaceNode kw lang nm an _ _ b l =>
      .namespaceNode kw lang nm an comments endLineComments b l
  | .structNode sk lc rc idf fs _ _ an b l =>
      .structNode sk lc rc idf fs comments endLineComments an b l
  | .constNode ck ek lsep nm ct v _ _ an b l =>
      .constNode ck ek lsep nm ct v comments endLineComments an b l
  | .typedefNode tk t al _ _ an b l =>
      .typedefNode tk t al comments endLineComments an b l
  | .enumNode ek lc rc nm vals _ _ an b l =>
      .enumNode ek lc rc nm vals comments endLineComments an b l
  | .enumValueNode lsep ek nm vn v an _ _ b l =>
      .enumValueNode lsep ek nm vn v an comments endLineComments b l
  | .serviceNode sk xk lc rc nm ext fns _ _ an b l =>
      .serviceNode sk xk lc rc nm ext fns comments endLineComments an b l
  | .unionNode uk lc rc nm fs _ _ an b l =>
      .unionNode uk lc rc nm fs comments endLineComments an b l
  | .exceptionNode ek lc rc nm fs _ _ an b l =>
      .exceptionNode ek lc rc nm fs comments endLineComments an b l
  | other => other

/-- The `SetAnnotations(annos)` methods of the definition types
(`BadDefinition`'s is a no-op); elsewhere the node is unchanged. -/
def setAnnos (n : Node) (annos : Option Node) : Node :=
  match n with
  | .structNode sk lc rc idf fs cs ecs _ b l =>
      .structNode sk lc rc idf fs cs ecs annos b l
  | .constNode ck ek lsep nm ct v cs ecs _ b l =>
      .constNode ck ek lsep nm ct v cs ecs annos b l
  | .typedefNode tk t al cs ecs _ b l =>
      .typedefNode tk t al cs ecs annos b l
  | .enumNode ek lc rc nm vals cs ecs _ b l =>
      .enumNode ek lc rc nm vals cs ecs annos b l
  | .serviceNode sk xk lc rc nm ext fns cs ecs _ b l =>
      .serviceNode sk xk lc rc nm ext fns cs ecs annos b l
  | .unionNode uk lc rc nm fs cs ecs _ b l =>
      .unionNode uk lc rc nm fs cs ecs annos b l
  | .exceptionNode ek lc rc nm fs cs ecs _ b l =>
      .exceptionNode ek lc rc nm fs cs ecs annos b l
  | other => other

/-- `CppType` from the source. It is kept outside `Node` because its
`IsBadNode` never returns (see `cppTypeIsBadNode`), so it cannot supply
the total `isBadNode`; no `Children()` method ever stores a `CppType`
inside a child list (`FieldType.Children` omits its `CppType` field). -/
structure CppType where
  cppTypeKeyword : Option Node
  literal : Option Node
  badNode : Bool
  loc : Location

/-- `NewCppType`: `BadNode` is left at its zero value `false`. -/
def NewCppType (cppTypeKeyword literal : Option Node) (loc : Location) : CppType :=
  { cppTypeKeyword := cppTypeKeyword, literal := literal, badNode := false, loc := loc }

/-- `CppType.Children`: `[]Node{c.CppTypeKeyword, c.Literal}`. -/
def cppTypeChildren (c : CppType) : List (Option Node) :=
  [c.cppTypeKeyword, c.literal]

/-- `CppType.IsBadNode` in the source is `return c.IsBadNode()`: the body
is exactly one unconditional call of the same method on the same
receiver. The call is modelled with explicit fuel; `none` means the call
has not produced a value within `fuel` nested invocations. -/
def cppTypeIsBadNode : Nat → CppType → Option Bool
  | 0, _ => none
  | fuel + 1, c => cppTypeIsBadNode fuel c

/-- The `Document` struct: typed buckets, the trailing comments, and the
single source-ordered `Nodes` list. -/
structure Document where
  filename : String
  badHeaders : List Node
  includes : List Node
  cppIncludes : List Node
  namespaces : List Node
  consts : List Node
  typedefs : List Node
  enums : List Node
  services : List Node
  structs : List Node
  unions : List Node
  exceptions : List Node
  badDefinitions : List Node
  comments : List Node
  nodes : List Node
  loc : Location

/-- One iteration of `NewDocument`'s header loop: the switch on
`header.Type()` appends to at most one bucket (the Go type assertions in
each arm always succeed, because each `Type()` string is returned by one
concrete type only), then the header joins `Nodes`. -/
def addHeader (d : Document) (header : Node) : Document :=
  let d :=
    match nodeType header with
    | "Include" => { d with includes := d.includes ++ [header] }
    | "CPPInclude" => { d with cppIncludes := d.cppIncludes ++ [header] }
    | "Namespace" => { d with namespaces := d.namespaces ++ [header] }
    | "BadHeader" => { d with badHeaders := d.badHeaders ++ [header] }
    | _ => d
  { d with nodes := d.nodes ++ [header] }

/-- One iteration of `NewDocument`'s definition loop. The
`"BadDefinition"` arm is in the source, but `BadDefinition.Type()`
returns `"Definition"`, so no input ever reaches that arm. -/
def addDefinition (d : Document) (df : Node) : Document :=
  let d :=
    match nodeType df with
    | "Const" => { d with consts := d.consts ++ [df] }
    | "Typedef" => { d with typedefs := d.typedefs ++ [df] }
    | "Enum" => { d with enums := d.enums ++ [df] }
    | "Service" => { d with services := d.services ++ [df] }
    | "Struct" => { d with structs := d.structs ++ [df] }
    | "Union" => { d with unions := d.unions ++ [df] }
    | "Exception" => { d with exceptions := d.exceptions ++ [df] }
    | "BadDefinition" => { d with badDefinitions := d.badDefinitions ++ [df] }
    | _ => d
  { d with nodes := d.nodes ++ [df] }

/-- `NewDocument(headers, defs, comments, loc)`: classify every header,
then every definition, then store the trailing comments and append them
to `Nodes`. -/
def NewDocument (headers defs comments : List Node) (loc : Location) : Document :=
  let d0 : Document :=
    { filename := "", badHeaders := [], includes := [], cppIncludes := [], namespaces := []
      consts := [], typedefs := [], enums := [], services := [], structs := []
      unions := [], exceptions := [], badDefinitions := [], comments := [], nodes := []
      loc := loc }
  let d1 := headers.foldl addHeader d0
  let d2 := defs.foldl addDefinition d1
  { d2 with comments := comments, nodes := d2.nodes ++ comments }

/-- `Document.Children()` returns `d.Nodes` (a `[]Node` slice: no
typed-nil entries). -/
def documentChildren (d : Document) : List Node :=
  d.nodes

set_option maxHeartbeats 2000000 in
/-- Every non-nil entry of a node's child list is a strict subterm, so
its size is smaller: the termination measure of the `ChildrenBadNode`
recursion. -/
def childMemSizeLt : ∀ (n c : Node), some c ∈ children n → sizeOf c < sizeOf n := by
  intro n c h
  cases n <;>
    simp only [children, optChild, reqChildren, List.mem_append, List.mem_cons,
      List.mem_map, List.not_mem_nil, or_false, false_or, Option.mem_toList,
      Option.mem_def, Option.some.injEq, List.mem_singleton, exists_eq_right] at h <;>
  (try casesm* _ ∨ _) <;>
  first
    | (rename_i h; subst h; simp; omega)
    | (rename_i h; have hlt := List.sizeOf_lt_of_mem h; simp; omega)

mutual

/-- The body of every `ChildrenBadNode()` method: iterate `Children()`;
return true as soon as a child's `IsBadNode()` or `ChildrenBadNode()` is
true, false after the last child. `BadHeader`, `BadDefinition`,
`Keyword`, `KeywordLiteral` and `Comment` return the literal `false`
instead of looping, which agrees with this loop because their child
lists are empty. The result is an `Option`: `none` records that the
iteration called `IsBadNode()` through an interface value holding a nil
pointer (a typed-nil child entry), which dereferences nil and panics. -/
def childrenBadNode (n : Node) : Option Bool :=
  cbnList n (children n) (fun _ hx => hx)
termination_by (sizeOf n, (children n).length + 1)
decreasing_by
  exact Prod.Lex.right _ (Nat.lt_succ_self _)

/-- The loop of `ChildrenBadNode()` over the not-yet-visited suffix `l`
of `children n`. -/
def cbnList (n : Node) (l : List (Option Node)) (hl : ∀ x ∈ l, x ∈ children n) : Option Bool :=
  match l, hl with
  | [], _ => some false
  | none :: _, _ => none
  | some c :: rest, hl =>
    if isBadNode c then some true
    else
      match childrenBadNode c with
      | none => none
      | some true => some true
      | some false => cbnList n rest (fun x hx => hl x (List.mem_cons_of_mem _ hx))
termination_by (sizeOf n, l.length)
decreasing_by
  · exact Prod.Lex.left _ _ (childMemSizeLt n c (hl (some c) (List.mem_cons_self _ _)))
  · exact Prod.Lex.right _ (Nat.lt_succ_self _)

end

/-- `Document.ChildrenBadNode()`: the same loop over `d.Nodes` (whose
entries are never typed-nil, so only a child's own loop can panic). -/
def documentCbnList (l : List Node) : Option Bool :=
  match l with
  | [] => some false
  | c :: rest =>
    if isBadNode c then some true
    else
      match childrenBadNode c with
      | none => none
      | some true => some true
      | some false => documentCbnList rest

/-- `Document.ChildrenBadNode()` from the source. -/
def documentChildrenBadNode (d : Document) : Option Bool :=
  documentCbnList (documentChildren d)

/-- `c` is one `Children()` step below `n` (through a non-nil entry). -/
def ChildRel (c n : Node) : Prop :=
  some c ∈ children n

/-- `n` has a bad node strictly below it: some child is bad, or some
child has one below it. This is the specification's notion of "a
descendant reachable via one or more `children()` steps is invalid". -/
inductive HasBadDesc : Node → Prop where
  | direct {n c : Node} (hc : some c ∈ children n) (hb : isBadNode c = true) : HasBadDesc n
  | nested {n c : Node} (hc : some c ∈ children n) (hd : HasBadDesc c) : HasBadDesc n

/-- No node of the subtree rooted at `n` has a typed-nil entry in its
child list, so the `ChildrenBadNode()` traversal below `n` never
dereferences a nil pointer. -/
inductive NilFree : Node → Prop where
  | intro {n : Node} (hnone : none ∉ children n)
      (hrec : ∀ c, some c ∈ children n → NilFree c) : NilFree n

/-- A sample one-character location, used for the concrete inputs of the
witnesses and counterexamples below. -/
def locEx : Location :=
  { startPos := { line := 1, col := 1, offset := 0 }
    endPos := { line := 1, col := 2, offset := 1 } }

/-- Sample identifier `Foo`. -/
def idEx : Node :=
  NewIdentifier (some (NewIdentifierName "Foo" locEx)) [] locEx

/-- Sample `include` keyword token. -/
def kwIncludeEx : Node :=
  .keywordNode .includeKw [] (some (.keywordLiteral "include" false locEx)) false locEx

/-- Sample `union` keyword token. -/
def kwUnionEx : Node :=
  .keywordNode .unionKw [] (some (.keywordLiteral "union" false locEx)) false locEx

/-- Sample left-curly token. -/
def kwLcurEx : Node :=
  .keywordNode .lcurKw [] (some (.keywordLiteral "\x7b" false locEx)) false locEx

/-- Sample right-curly token. -/
def kwRcurEx : Node :=
  .keywordNode .rcurKw [] (some (.keywordLiteral "\x7d" false locEx)) false locEx

/-- Sample include path literal. -/
def litEx : Node :=
  NewLiteral [] (some (NewLiteralValue "base.thrift" locEx)) "\"" locEx

/-- Sample `Include` header. -/
def incEx : Node :=
  NewInclude (some kwIncludeEx) (some litEx) locEx

/-- Sample `Namespace` header. -/
def nsEx : Node :=
  NewNamespace (some (.keywordNode .namespaceKw [] none false locEx)) (some idEx) (some idEx)
    none locEx

/-- Sample bad header. -/
def bhEx : Node :=
  NewBadHeader locEx

/-- Sample `Const` definition. -/
def constEx : Node :=
  NewConst (some (.keywordNode .constKw [] none false locEx))
    (some (.keywordNode .equalKw [] none false locEx)) none (some idEx)
    (some (NewFieldType none none none (some (NewTypeName "i32" locEx)) none none locEx))
    (some (NewConstValue "i64" none locEx)) locEx

/-- Sample `Struct` definition. -/
def structEx : Node :=
  NewStruct (some (.keywordNode .structKw [] none false locEx)) (some kwLcurEx)
    (some kwRcurEx) (some idEx) [] locEx

/-- Sample bad definition. -/
def bdEx : Node :=
  NewBadDefinition locEx

/-- Sample shell comment. -/
def comEx : Node :=
  NewComment "a comment" "shell" locEx

/-- Sample union carrying one comment, built the way the grammar engine
does it: construct, then `SetComments`. -/
def unionEx : Node :=
  setComments (NewUnion (some kwUnionEx) (some kwLcurEx) (some kwRcurEx) (some idEx) [] locEx)
    [comEx] []

theorem posLess_iff (p q : Position) : posLess p q = true ↔ PosLt p q := by
  simp only [posLess, PosLt]
  split <;> try split
  all_goals simp_all

theorem posGreater_iff (p q : Position) : posGreater p q = true ↔ PosLt q p := by
  simp only [posGreater, PosLt]
  split <;> try split
  all_goals simp_all
  all_goals omega

theorem posEqual_iff (p q : Position) :
    posEqual p q = true ↔ (p.line = q.line ∧ p.col = q.col) := by
  simp [posEqual]

theorem cbnList_none_entry (n : Node) (rest : List (Option Node))
    (hl : ∀ x ∈ none :: rest, x ∈ children n) :
    cbnList n (none :: rest) hl = none := by
  simp [cbnList]

/-- The loop of `ChildrenBadNode()` over a suffix without typed-nil
entries computes, and returns true exactly when some listed child is bad
or has a bad descendant. -/
theorem cbnList_spec (n : Node) :
    ∀ (l : List (Option Node)) (hl : ∀ x ∈ l, x ∈ children n),
      none ∉ l →
      (∀ c, some c ∈ l → ∃ b, childrenBadNode c = some b ∧ (b = true ↔ HasBadDesc c)) →
      ∃ b, cbnList n l hl = some b ∧
        (b = true ↔ ∃ c, some c ∈ l ∧ (isBadNode c = true ∨ HasBadDesc c)) := by
  intro l
  induction l with
  | nil =>
    intro hl _ _
    exact ⟨false, by simp [cbnList], by simp⟩
  | cons x rest ih =>
    intro hl hnone hrec
    match x with
    | none =>
      exact absurd (List.mem_cons_self _ _) hnone
    | some c =>
      by_cases hb : isBadNode c
      · refine ⟨true, by simp [cbnList, hb], ?_⟩
        exact ⟨fun _ => ⟨c, List.mem_cons_self _ _, Or.inl hb⟩, fun _ => rfl⟩
      · obtain ⟨bc, hbc, hbciff⟩ := hrec c (List.mem_cons_self _ _)
        cases bc with
        | true =>
          refine ⟨true, by simp [cbnList, hb, hbc], ?_⟩
          exact ⟨fun _ => ⟨c, List.mem_cons_self _ _, Or.inr (hbciff.mp rfl)⟩, fun _ => rfl⟩
        | false =>
          obtain ⟨b, hbres, hbiff⟩ := ih (fun x hx => hl x (List.mem_cons_of_mem _ hx))
            (fun hx => hnone (List.mem_cons_of_mem _ hx))
            (fun c hc => hrec c (List.mem_cons_of_mem _ hc))
          refine ⟨b, ?_, ?_⟩
          · have hstep : cbnList n (some c :: rest) hl =
                cbnList n rest (fun x hx => hl x (List.mem_cons_of_mem _ hx)) := by
              simp [cbnList, hb, hbc]
            rw [hstep]
            exact hbres
          · constructor
            · intro h
              obtain ⟨c2, hc2, hp⟩ := hbiff.mp h
              exact ⟨c2, List.mem_cons_of_mem _ hc2, hp⟩
            · rintro ⟨c2, hc2, hp⟩
              rcases List.mem_cons.mp hc2 with heq | hmem
              · obtain rfl : c2 = c := by injection heq
                rcases hp with hpb | hpd
                · exact absurd hpb hb
                · exact absurd (hbciff.mpr hpd) (by simp)
              · exact hbiff.mpr ⟨c2, hmem, hp⟩

/-- On a nil-free subtree, `ChildrenBadNode()` computes, and is true
exactly when a bad node sits strictly below the receiver. -/
theorem childrenBadNode_spec : ∀ (n : Node), NilFree n →
    ∃ b, childrenBadNode n = some b ∧ (b = true ↔ HasBadDesc n) := by
  intro n hnf
  induction hnf with
  | @intro n hnone hrec ih =>
    obtain ⟨b, hb, hiff⟩ := cbnList_spec n (children n) (fun _ hx => hx) hnone ih
    refine ⟨b, ?_, ?_⟩
    · rw [childrenBadNode.eq_def]
      exact hb
    · rw [hiff]
      constructor
      · rintro ⟨c, hc, hpb | hpd⟩
        · exact .direct hc hpb
        · exact .nested hc hpd
      · intro hd
        cases hd with
        | direct hc hb2 => exact ⟨_, hc, Or.inl hb2⟩
        | nested hc hd2 => exact ⟨_, hc, Or.inr hd2⟩

/-- `HasBadDesc` is exactly "a bad node is reachable in one or more
`Children()` steps". -/
theorem hasBadDesc_iff (n : Node) :
    HasBadDesc n ↔ ∃ d, Relation.TransGen ChildRel d n ∧ isBadNode d = true := by
  constructor
  · intro h
    induction h with
    | direct hc hb => exact ⟨_, Relation.TransGen.single hc, hb⟩
    | nested _ _ ih =>
      obtain ⟨d, ht, hb⟩ := ih
      rename_i hc _
      exact ⟨d, Relation.TransGen.tail ht hc, hb⟩
  · rintro ⟨d, ht, hb⟩
    induction ht with
    | single hc => exact .direct hc hb
    | tail _ hc ih => exact .nested hc ih

/-- `Document.ChildrenBadNode()`'s loop over a list of nil-free nodes. -/
theorem documentCbnList_spec (l : List Node) (h : ∀ c ∈ l, NilFree c) :
    ∃ b, documentCbnList l = some b ∧
      (b = true ↔ ∃ c ∈ l, isBadNode c = true ∨ HasBadDesc c) := by
  induction l with
  | nil => exact ⟨false, rfl, by simp⟩
  | cons c rest ih =>
    by_cases hb : isBadNode c
    · refine ⟨true, by simp [documentCbnList, hb], ?_⟩
      exact ⟨fun _ => ⟨c, List.mem_cons_self _ _, Or.inl hb⟩, fun _ => rfl⟩
    · obtain ⟨bc, hbc, hbciff⟩ := childrenBadNode_spec c (h c (List.mem_cons_self _ _))
      cases bc with
      | true =>
        refine ⟨true, by simp [documentCbnList, hb, hbc], ?_⟩
        exact ⟨fun _ => ⟨c, List.mem_cons_self _ _, Or.inr (hbciff.mp rfl)⟩, fun _ => rfl⟩
      | false =>
        obtain ⟨b, hbres, hbiff⟩ := ih (fun c2 hc2 => h c2 (List.mem_cons_of_mem _ hc2))
        refine ⟨b, ?_, ?_⟩
        · simpa [documentCbnList, hb, hbc] using hbres
        · constructor
          · intro hx
            obtain ⟨c2, hc2, hp⟩ := hbiff.mp hx
            exact ⟨c2, List.mem_cons_of_mem _ hc2, hp⟩
          · rintro ⟨c2, hc2, hp⟩
            rcases List.mem_cons.mp hc2 with rfl | hmem
            · rcases hp with hpb | hpd
              · exact absurd hpb hb
              · exact absurd (hbciff.mpr hpd) (by simp)
            · exact hbiff.mpr ⟨c2, hmem, hp⟩

/-- `Document.ChildrenBadNode()` is true exactly when one of the
document's nodes is bad or has a bad descendant (the document's own
`IsBadNode()` is the constant false and plays no part). -/
theorem documentChildrenBadNode_iff (d : Document) (h : ∀ c ∈ documentChildren d, NilFree c) :
    ∃ b, documentChildrenBadNode d = some b ∧
      (b = true ↔ ∃ c ∈ documentChildren d, isBadNode c = true ∨ HasBadDesc c) :=
  documentCbnList_spec (documentChildren d) h

/-- C1, amended. Every bad-node constructor yields `IsBadNode() = true`.
The bad constructors of BadHeader, BadDefinition, Field, FieldIndex,
ConstValue, Literal and Comment yield an empty `Children()` list; the
bad constructors of Include, CPPInclude, Namespace, Struct, Union,
Exception, Enum, EnumValue, Service, Function, Const, Typedef,
Identifier and Annotation yield a `Children()` list whose entries are
interface values holding nil pointers (the unconditionally appended
fixed fields), so their `Children()` is not empty and every entry is a
nil entry. -/
theorem badConstructors_isBadNode_and_children (loc : Location) :
    (isBadNode (NewBadHeader loc) = true ∧ children (NewBadHeader loc) = []) ∧
    (isBadNode (NewBadInclude loc) = true ∧ children (NewBadInclude loc) = [none, none]) ∧
    (isBadNode (NewBadCPPInclude loc) = true ∧ children (NewBadCPPInclude loc) = [none, none]) ∧
    (isBadNode (NewBadNamespace loc) = true ∧ children (NewBadNamespace loc) = [none, none, none]) ∧
    (isBadNode (NewBadDefinition loc) = true ∧ children (NewBadDefinition loc) = []) ∧
    (isBadNode (NewBadStruct loc) = true ∧ children (NewBadStruct loc) = [none, none, none, none]) ∧
    (isBadNode (NewBadUnion loc) = true ∧ children (NewBadUnion loc) = [none, none, none, none]) ∧
    (isBadNode (NewBadException loc) = true ∧ children (NewBadException loc) = [none, none, none, none]) ∧
    (isBadNode (NewBadEnum loc) = true ∧ children (NewBadEnum loc) = [none]) ∧
    (isBadNode (NewBadEnumValue loc) = true ∧ children (NewBadEnumValue loc) = [none]) ∧
    (isBadNode (NewBadService loc) = true ∧ children (NewBadService loc) = [none, none, none]) ∧
    (isBadNode (NewBadFunction loc) = true ∧ children (NewBadFunction loc) = [none, none]) ∧
    (isBadNode (NewBadConst loc) = true ∧ children (NewBadConst loc) = [none, none, none, none, none]) ∧
    (isBadNode (NewBadTypedef loc) = true ∧ children (NewBadTypedef loc) = [none, none, none]) ∧
    (isBadNode (NewBadField loc) = true ∧ children (NewBadField loc) = []) ∧
    (isBadNode (NewBadFieldIndex loc) = true ∧ children (NewBadFieldIndex loc) = []) ∧
    (isBadNode (NewBadIdentifier loc) = true ∧ children (NewBadIdentifier loc) = [none]) ∧
    (isBadNode (NewBadConstValue loc) = true ∧ children (NewBadConstValue loc) = []) ∧
    (isBadNode (NewBadLiteral loc) = true ∧ children (NewBadLiteral loc) = []) ∧
    (isBadNode (NewBadAnno loc) = true ∧ children (NewBadAnno loc) = [none, none, none]) ∧
    (isBadNode (NewBadComment loc) = true ∧ children (NewBadComment loc) = []) :=
  ⟨⟨rfl, rfl⟩, ⟨rfl, rfl⟩, ⟨rfl, rfl⟩, ⟨rfl, rfl⟩, ⟨rfl, rfl⟩, ⟨rfl, rfl⟩, ⟨rfl, rfl⟩,
   ⟨rfl, rfl⟩, ⟨rfl, rfl⟩, ⟨rfl, rfl⟩, ⟨rfl, rfl⟩, ⟨rfl, rfl⟩, ⟨rfl, rfl⟩, ⟨rfl, rfl⟩,
   ⟨rfl, rfl⟩, ⟨rfl, rfl⟩, ⟨rfl, rfl⟩, ⟨rfl, rfl⟩, ⟨rfl, rfl⟩, ⟨rfl, rfl⟩, ⟨rfl, rfl⟩⟩

/-- C1, counterexample. `NewBadStruct` at a concrete location: its
`Children()` is a four-entry list (of typed-nil interface values), not
the empty sequence the claim demands. -/
theorem newBadStruct_children_nonempty :
    children (NewBadStruct locEx) = [none, none, none, none] ∧
    children (NewBadStruct locEx) ≠ [] :=
  ⟨rfl, by simp [NewBadStruct, children, reqChildren, optChild]⟩

/-- C5, amended. `NewIdentifier` stores `name == nil || name.BadNode` as
the identifier's own `BadNode` flag: an identifier built from a non-nil
`IdentifierName` is locally bad exactly when that child is bad (the name
text is empty), so the local flag does depend on the child. -/
theorem newIdentifier_badNode_from_name (nm : String) (comments : List Node)
    (loc1 loc2 : Location) :
    isBadNode (NewIdentifier (some (NewIdentifierName nm loc1)) comments loc2) = (nm == "") ∧
    isBadNode (NewIdentifier none comments loc2) = true :=
  ⟨rfl, rfl⟩

/-- C5, counterexample. `NewIdentifierName ""` is a bad node, and the
identifier `NewIdentifier` builds from it reports `IsBadNode() = true`,
not the `false` the claim demands. -/
theorem newIdentifier_bad_child_counterexample :
    isBadNode (NewIdentifierName "" locEx) = true ∧
    isBadNode (NewIdentifier (some (NewIdentifierName "" locEx)) [] locEx) = true :=
  ⟨rfl, rfl⟩

/-- C6. `CppType.IsBadNode` is `return c.IsBadNode()`: for every fuel
bound the self-call has not returned, so the method never terminates and
in particular never returns the stored `BadNode` field. -/
theorem cppTypeIsBadNode_never_returns (fuel : Nat) (c : CppType) :
    cppTypeIsBadNode fuel c = none ∧ cppTypeIsBadNode fuel c ≠ some c.badNode := by
  have h : cppTypeIsBadNode fuel c = none := by
    induction fuel with
    | zero => rfl
    | succ k ih => simpa [cppTypeIsBadNode] using ih
  exact ⟨h, by simp [h]⟩

/-- C10. `ConstValue.Children` returns nil for every `ConstValue`,
whatever its fields hold, and `ConstValue.ChildrenBadNode` is therefore
false; in particular a pair built by `NewMapConstValue` never surfaces a
bad `ConstValue` stored in its `Key` or `Value` slot. -/
theorem constValue_children_empty
    (tn vit : String) (v k lbrk rbrk lcur rcur lsep colonKw : Option Node)
    (cs : List Node) (b : Bool) (loc : Location) :
    children (.constValueNode tn v vit k lbrk rbrk lcur rcur lsep colonKw cs b loc) = [] ∧
    childrenBadNode (.constValueNode tn v vit k lbrk rbrk lcur rcur lsep colonKw cs b loc) = some false ∧
    (∀ key value : Node,
      children (NewMapConstValue (some key) (some value) loc) = [] ∧
      childrenBadNode (NewMapConstValue (some key) (some value) loc) = some false) := by
  refine ⟨rfl, ?_, ?_⟩
  · simp [childrenBadNode, cbnList, children]
  · intro key value
    exact ⟨rfl, by simp [childrenBadNode, cbnList, NewMapConstValue, children]⟩

/-- C2, at the failing input. `NewDocument` classifies the Include,
Namespace, BadHeader, Const and Struct inputs into their buckets and
keeps all six inputs in order in `Nodes` — but the `BadDefinition`
input lands in no bucket at all: `BadDefinition.Type()` returns
`"Definition"`, so the switch's `"BadDefinition"` arm never matches and
`BadDefinitions` stays empty. -/
theorem newDocument_badDefinition_unbucketed :
    (NewDocument [incEx, nsEx, bhEx] [constEx, structEx, bdEx] [] locEx).includes = [incEx] ∧
    (NewDocument [incEx, nsEx, bhEx] [constEx, structEx, bdEx] [] locEx).cppIncludes = [] ∧
    (NewDocument [incEx, nsEx, bhEx] [constEx, structEx, bdEx] [] locEx).namespaces = [nsEx] ∧
    (NewDocument [incEx, nsEx, bhEx] [constEx, structEx, bdEx] [] locEx).badHeaders = [bhEx] ∧
    (NewDocument [incEx, nsEx, bhEx] [constEx, structEx, bdEx] [] locEx).consts = [constEx] ∧
    (NewDocument [incEx, nsEx, bhEx] [constEx, structEx, bdEx] [] locEx).structs = [structEx] ∧
    nodeType bdEx = "Definition" ∧
    (NewDocument [incEx, nsEx, bhEx] [constEx, structEx, bdEx] [] locEx).badDefinitions = [] ∧
    (NewDocument [incEx, nsEx, bhEx] [constEx, structEx, bdEx] [] locEx).nodes =
      [incEx, nsEx, bhEx, constEx, structEx, bdEx] :=
  ⟨rfl, rfl, rfl, rfl, rfl, rfl, rfl, rfl, rfl⟩

/-- C3, at the failing input. For start line 1, column 1, offset 0 and
the two-newline text `struct Foo {\n  1: string a\n}`, `NewLocation`
computes end line 3 and end byte offset 28 as the claim states, but end
column 3, not 2: the sliced last line starts AT the final newline byte,
so the newline itself is counted as one extra rune in the column. -/
theorem newLocation_multiline_eval :
    NewLocation { line := 1, col := 1, offset := 0 }
        ("struct Foo \x7b\n  1: string a\n\x7d".toList) =
      { startPos := { line := 1, col := 1, offset := 0 }
        endPos := { line := 3, col := 3, offset := 28 } } := by
  decide

/-- Supporting check: the single-line case of `NewLocation` does follow
the specification (`computeSpan({1,1,0}, "include") = {1,8,7}`); only
the multi-line case is off by one column. -/
theorem newLocation_single_line_eval :
    NewLocation { line := 1, col := 1, offset := 0 } ("include".toList) =
      { startPos := { line := 1, col := 1, offset := 0 }
        endPos := { line := 1, col := 8, offset := 7 } } := by
  decide

/-- C9. A zero-length match yields `end == start`: for every start
position with line and column at least 1, `NewLocation` of the empty
text returns a degenerate span. -/
theorem newLocation_empty_text (p : PigeonPos) (h1 : 1 ≤ p.line) (h2 : 1 ≤ p.col) :
    (NewLocation p []).endPos = (NewLocation p []).startPos := by
  have hc : ¬ (p.col = 0) := by omega
  simp [NewLocation, ConvertPosition, goCountNewlines, goLastLine, suffixFromLastNewline,
    goByteLen, hc, Position.mk.injEq]

/-- C9, witness: the empty match at line 1, column 1. -/
theorem newLocation_empty_text_witness :
    (NewLocation { line := 1, col := 1, offset := 0 } []).endPos =
      (NewLocation { line := 1, col := 1, offset := 0 } []).startPos :=
  newLocation_empty_text { line := 1, col := 1, offset := 0 } (by decide) (by decide)

/-- C7. `Contains` is false on a nil location, true exactly on the
half-open `[start, end)` interval under the (line, column) order, and
for a non-degenerate span it is true at `start`, false at `end` and
true at the last column before `end`. -/
theorem locContains_halfOpen (l : Location) (pos : Position) :
    locContains none pos = false ∧
    (locContains (some l) pos = true ↔ (PosLe l.startPos pos ∧ PosLt pos l.endPos)) ∧
    (PosLt l.startPos l.endPos →
      locContains (some l) l.startPos = true ∧
      locContains (some l) l.endPos = false ∧
      locContains (some l)
        { line := l.endPos.line, col := l.endPos.col - 1, offset := l.endPos.offset } = true) := by
  refine ⟨rfl, ?_, ?_⟩
  · simp only [locContains, Bool.and_eq_true, Bool.or_eq_true, posLess_iff, posEqual_iff,
      posGreater_iff, PosLe, PosLt]
    omega
  · intro h
    simp only [PosLt] at h
    refine ⟨?_, ?_, ?_⟩
    · simp only [locContains, Bool.and_eq_true, Bool.or_eq_true, posLess_iff, posEqual_iff,
        posGreater_iff, PosLe, PosLt, true_and, and_true, or_true, true_or]
      rcases h with h | h <;> omega
    · rw [← Bool.not_eq_true]
      simp only [locContains, Bool.and_eq_true, Bool.or_eq_true, posLess_iff, posEqual_iff,
        posGreater_iff, PosLe, PosLt, true_and, and_true, or_true, true_or]
      rcases h with h | h <;> omega
    · simp only [locContains, Bool.and_eq_true, Bool.or_eq_true, posLess_iff, posEqual_iff,
        posGreater_iff, PosLe, PosLt, true_and, and_true, or_true, true_or]
      rcases h with h | h <;> omega

/-- C7, witness: the one-character span of `locEx` contains its start
and not its end. -/
theorem locContains_halfOpen_witness :
    locContains (some locEx) locEx.startPos = true ∧
    locContains (some locEx) locEx.endPos = false := by
  have h := (locContains_halfOpen locEx locEx.startPos).2.2 (by decide)
  exact ⟨h.1, h.2.1⟩

/-- C4, amended. On every node whose subtree is free of typed-nil child
entries, `ChildrenBadNode()` returns a value, and that value is true
exactly when a node with `IsBadNode() = true` is reachable in one or
more `Children()` steps; with a typed-nil entry in reach (every bad
composite constructor produces such entries) the traversal instead
dereferences a nil pointer, see the counterexample. -/
theorem childrenBadNode_iff_bad_descendant (n : Node) (hnf : NilFree n) :
    ∃ b, childrenBadNode n = some b ∧
      (b = true ↔ ∃ d, Relation.TransGen ChildRel d n ∧ isBadNode d = true) := by
  obtain ⟨b, hb, hiff⟩ := childrenBadNode_spec n hnf
  exact ⟨b, hb, hiff.trans (hasBadDesc_iff n)⟩

/-- C4, witness: a comment leaf is nil-free, its `ChildrenBadNode()` is
`some false`, and it has no descendant at all. -/
theorem childrenBadNode_iff_witness :
    ∃ b, childrenBadNode comEx = some b ∧
      (b = true ↔ ∃ d, Relation.TransGen ChildRel d comEx ∧ isBadNode d = true) :=
  childrenBadNode_iff_bad_descendant comEx
    (NilFree.intro (by simp [comEx, NewComment, children])
      (by simp [comEx, NewComment, children]))

/-- C4, counterexample. `NewBadStruct` has no bad descendant (its child
entries are typed-nil pointers, not nodes), yet `ChildrenBadNode()` on
it does not return false — it returns no value at all, because the loop
calls `IsBadNode()` through a nil `*StructKeyword` and panics. -/
theorem childrenBadNode_bad_struct_panics :
    childrenBadNode (NewBadStruct locEx) = none ∧
    ¬ ∃ b : Bool, childrenBadNode (NewBadStruct locEx) = some b := by
  have h : childrenBadNode (NewBadStruct locEx) = none := by
    simp [childrenBadNode, cbnList, NewBadStruct, children]
  exact ⟨h, by simp [h]⟩

/-- C8, amended. `Children()` of the five composite declaration types,
entry for entry: Struct and Service list their keyword tokens first and
the identifier after them; Union and Exception list the identifier
before the keyword tokens; Enum lists only the identifier and no
keyword token; nested elements follow in source order, then the
comments — which Union appends twice (comments and end-line comments
both) — and the annotation block comes last. -/
theorem composite_children_order
    (kw lc rc idf an nm ukw ekw enkw skw xkw ext : Node)
    (fs vals fns cs ecs : List Node) :
    children (setAnnos (setComments (NewStruct (some kw) (some lc) (some rc) (some idf) fs locEx) cs ecs) (some an)) =
      [some kw, some lc, some rc, some idf] ++ fs.map some ++ cs.map some ++ ecs.map some ++ [some an] ∧
    children (setAnnos (setComments (NewUnion (some ukw) (some lc) (some rc) (some nm) fs locEx) cs ecs) (some an)) =
      [some nm, some ukw, some lc, some rc] ++ fs.map some ++ cs.map some ++ ecs.map some
        ++ cs.map some ++ ecs.map some ++ [some an] ∧
    children (setAnnos (setComments (NewEnum (some enkw) (some lc) (some rc) (some nm) vals locEx) cs ecs) (some an)) =
      [some nm] ++ vals.map some ++ cs.map some ++ ecs.map some ++ [some an] ∧
    children (setAnnos (setComments (NewException (some ekw) (some lc) (some rc) (some nm) fs locEx) cs ecs) (some an)) =
      [some nm, some ekw, some lc, some rc] ++ fs.map some ++ cs.map some ++ ecs.map some ++ [some an] ∧
    children (setAnnos (setComments (NewService (some skw) (some xkw) (some lc) (some rc) (some nm) (some ext) fns locEx) cs ecs) (some an)) =
      [some skw, some lc, some rc, some xkw, some nm, some ext] ++ fns.map some
        ++ cs.map some ++ ecs.map some ++ [some an] :=
  ⟨rfl, rfl, rfl, rfl, rfl⟩

/-- C8, counterexample. A union with one comment: its `Children()`
starts with the identifier, not the keyword tokens, and lists the
comment twice — not the keyword-first, each-comment-once sequence the
claim demands. -/
theorem union_children_duplicate_comments :
    children unionEx =
      [some idEx, some kwUnionEx, some kwLcurEx, some kwRcurEx, some comEx, some comEx] ∧
    children unionEx ≠
      [some kwUnionEx, some kwLcurEx, some kwRcurEx, some idEx, some comEx] := by
  constructor
  · rfl
  · have he : children unionEx =
        [some idEx, some kwUnionEx, some kwLcurEx, some kwRcurEx, some comEx, some comEx] := rfl
    rw [he]
    simp

end Thrift
